import Mathlib

/-!
# Verification of the audit-trail capture-and-query subsystem

Shallow embedding of the audit subsystem of the pilot-docs repository:

* `src/database/audit-schema.sql` — the `audit_logs` table with its CHECK
  constraints, the generic `audit_trigger_function`, the explicit
  `log_custom_action`, the filtered `get_audit_logs` query, the
  `get_audit_statistics` aggregate, the `view_audit_logs` row-level-security
  policy and the `audit_logs_with_details` view;
* the TypeScript audit client (the `auditLogs` module embedded in
  `src/infrastructure-optimization.md`) — `logAuditAction`,
  `getAuditLogsWithDetails`, `getAuditStatistics`, `exportAuditLogsToCSV`,
  `exportAuditLogsToJSON`.

Database rows are modelled as association lists of scalar SQL values (the
three audited tables — `documents`, `pilots`, `user_roles` — contain only
text-like, numeric and nullable columns, per `src/lib/database.types.ts`).
Timestamps are integers (epoch seconds); UUIDs are strings.  Fallible SQL
statements return `Except SqlError`; a statement-level error models
PostgreSQL aborting the enclosing transaction, so an `Except.error` result
means the starting state is kept unchanged.
-/

namespace PilotDocs

/-- A scalar SQL / jsonb value as it appears in a row snapshot of one of the
audited tables (`documents`, `pilots`, `user_roles`): SQL `NULL`, a
text-like value (text, uuid, timestamp, enum — everything `to_jsonb`
renders as a JSON string), or a numeric value (`documents.file_size`). -/
inductive SqlValue : Type where
  | null : SqlValue
  | str : String → SqlValue
  | num : Int → SqlValue
deriving DecidableEq, Repr

/-- A row snapshot: `to_jsonb(OLD)` / `to_jsonb(NEW)` as an association list
from column name to scalar value. -/
abbrev Row := List (String × SqlValue)

/-- Big-endian decimal digits of `n`, by repeated division; `fuel` bounds the
recursion and any `fuel ≥ n` gives the exact digits. -/
def natDecCharsAux : Nat → Nat → List Char
  | 0, _ => []
  | fuel + 1, n =>
    if n = 0 then [] else natDecCharsAux fuel (n / 10) ++ [Nat.digitChar (n % 10)]

/-- Decimal digit characters of a natural number (big-endian), matching how
PostgreSQL renders a JSON number to text. -/
def natDecChars (n : Nat) : List Char :=
  if n = 0 then ['0'] else natDecCharsAux n n

/-- Decimal rendering of an integer, matching the text form `->>` produces
for a numeric jsonb value. -/
def intDecChars (n : Int) : List Char :=
  if n < 0 then '-' :: natDecChars n.natAbs else natDecChars n.toNat

/-- The text projection `snapshot ->> key` applied to a scalar value:
SQL `NULL` for jsonb `null`, the bare string for a jsonb string, the
decimal rendering for a jsonb number. -/
def SqlValue.textOf : SqlValue → Option String
  | .null => none
  | .str s => some s
  | .num n => some ⟨intDecChars n⟩

/-- Two scalar values are type-compatible when they can inhabit the same
SQL column: any value is compatible with `NULL`, strings with strings,
numbers with numbers.  The two snapshots of an `UPDATE` on a real table
satisfy this column-wise, because a column's SQL type is fixed. -/
def SqlValue.typeCompat : SqlValue → SqlValue → Bool
  | .null, _ => true
  | _, .null => true
  | .str _, .str _ => true
  | .num _, .num _ => true
  | _, _ => false

/-- The projection `snapshot ->> key`: SQL `NULL` when the key is absent or its value is
jsonb `null`, the value's text form otherwise. -/
def rowText (d : Row) (k : String) : Option String :=
  (d.lookup k).bind SqlValue.textOf

/-- The changed-field loop of `audit_trigger_function`
(src/database/audit-schema.sql lines 74-78): iterate the keys of the new
snapshot, keeping every key whose text projection in the old snapshot
`IS DISTINCT FROM` the one in the new snapshot. -/
def changedFieldsOf (oldD newD : Row) : List String :=
  (newD.map Prod.fst).filter (fun k => decide (rowText oldD k ≠ rowText newD k))

/-- The closed `action_type` list of the CHECK constraint on `audit_logs`
(src/database/audit-schema.sql line 9). -/
def allowedActionTypes : List String :=
  ["CREATE", "UPDATE", "DELETE", "APPROVE", "REJECT", "UPLOAD", "DOWNLOAD",
   "LOGIN", "LOGOUT", "VIEW", "EXPORT"]

/-- The `user_role` CHECK list (line 12). -/
def allowedRoles : List String := ["pilot", "admin", "inspector"]

/-- Errors a statement can raise; a raise aborts the transaction. -/
inductive SqlError : Type where
  | checkViolation (constraint : String)
  | groupingError (column : String)
deriving DecidableEq, Repr

/-- One row of the `audit_logs` table (src/database/audit-schema.sql
lines 5-21). -/
structure AuditEntry where
  id : String
  table_name : String
  record_id : Option String
  action_type : String
  user_id : Option String
  user_email : Option String
  user_role : Option String
  old_values : Option Row
  new_values : Option Row
  changed_fields : List String
  ip_address : Option String
  user_agent : Option String
  session_id : Option String
  metadata : List (String × SqlValue)
  created_at : Int
deriving DecidableEq, Repr

/-- The CHECK constraints of `audit_logs` applied to a candidate row
(lines 9 and 12); an insert violating one raises and aborts the
enclosing transaction. -/
def auditInsertChecks (e : AuditEntry) : Except SqlError Unit :=
  if e.action_type ∈ allowedActionTypes then
    if (match e.user_role with
        | none => true
        | some r => decide (r ∈ allowedRoles)) then
      .ok ()
    else .error (.checkViolation "audit_logs_user_role_check")
  else .error (.checkViolation "audit_logs_action_type_check")

/-- Ambient session state: `auth.uid()`, `auth.email()` and the clock. -/
structure SessionCtx where
  uid : Option String
  email : Option String
  now : Int
deriving DecidableEq, Repr

/-- Result row of `get_current_user_context()` (lines 35-47). -/
structure UserCtx where
  user_id : Option String
  user_email : Option String
  user_role : Option String
deriving DecidableEq, Repr

/-- Model of `get_current_user_context()`: join the auth identity with `user_roles`;
when the caller has no `user_roles` row the query returns no row and the
`SELECT INTO` leaves every context field NULL. -/
def get_current_user_context (roles : List (String × String)) (s : SessionCtx) :
    UserCtx :=
  match s.uid with
  | none => ⟨none, none, none⟩
  | some u =>
    match roles.find? (fun p => p.1 == u) with
    | some p => ⟨some u, s.email, some p.2⟩
    | none => ⟨none, none, none⟩

/-- Trigger operation, with `TG_OP`'s spelling. -/
inductive TgOp : Type where
  | ins : TgOp
  | upd : TgOp
  | del : TgOp
deriving DecidableEq, Repr

/-- The value of the `TG_OP` trigger variable. -/
def TgOp.opName : TgOp → String
  | .ins => "INSERT"
  | .upd => "UPDATE"
  | .del => "DELETE"

/-- Model of `audit_trigger_function()` (lines 50-116): the audit row built for a
tracked mutation.  `entryId` models `gen_random_uuid()` and `now` the row's
`created_at` default.  Request-context columns (`ip_address`, `user_agent`,
`session_id`) are not set by the trigger and stay NULL. -/
def audit_trigger_function (ctx : UserCtx) (op : TgOp)
    (oldRow newRow : Option Row) (tgName tableName : String)
    (entryId : String) (now : Int) : AuditEntry :=
  let old_data : Option Row :=
    match op with | .del => oldRow | .ins => none | .upd => oldRow
  let new_data : Option Row :=
    match op with | .del => none | .ins => newRow | .upd => newRow
  let changed : List String :=
    match op with
    | .upd => changedFieldsOf (oldRow.getD []) (newRow.getD [])
    | _ => []
  { id := entryId
    table_name := tableName
    record_id :=
      (newRow.bind (fun r => rowText r "id")).orElse
        (fun _ => oldRow.bind (fun r => rowText r "id"))
    action_type := op.opName
    user_id := ctx.user_id
    user_email := ctx.user_email
    user_role := ctx.user_role
    old_values := old_data
    new_values := new_data
    changed_fields := changed
    ip_address := none
    user_agent := none
    session_id := none
    metadata := [("trigger_name", .str tgName), ("schema_name", .str "public")]
    created_at := now }

/-- The three tables carrying the audit trigger (lines 119-132). -/
def trackedTables : List String := ["documents", "pilots", "user_roles"]

/-- Trigger names from the `CREATE TRIGGER` statements. -/
def triggerNameFor (t : String) : String := "audit_" ++ t ++ "_trigger"

/-- A single-row mutation, as seen by a `FOR EACH ROW` trigger. -/
inductive Mutation : Type where
  | ins (table : String) (newRow : Row)
  | upd (table : String) (oldRow newRow : Row)
  | del (table : String) (oldRow : Row)
deriving DecidableEq, Repr

/-- Target table of a mutation. -/
def Mutation.table : Mutation → String
  | .ins t _ => t
  | .upd t _ _ => t
  | .del t _ => t

/-- Trigger operation of a mutation. -/
def Mutation.op : Mutation → TgOp
  | .ins _ _ => .ins
  | .upd _ _ _ => .upd
  | .del _ _ => .del

/-- The record `OLD` as visible to the trigger. -/
def Mutation.oldRow : Mutation → Option Row
  | .ins _ _ => none
  | .upd _ o _ => some o
  | .del _ o => some o

/-- The record `NEW` as visible to the trigger. -/
def Mutation.newRow : Mutation → Option Row
  | .ins _ n => some n
  | .upd _ _ n => some n
  | .del _ _ => none

/-- Database state: the application tables and the append-only audit log,
plus a counter for fresh audit-entry ids. -/
structure DB where
  tables : List (String × List Row)
  audit : List AuditEntry
  nextId : Nat
deriving DecidableEq, Repr

/-- The row-level effect of a mutation on a table's rows. -/
def applyRowChange (rows : List Row) : Mutation → List Row
  | .ins _ nr => rows ++ [nr]
  | .upd _ o nr => rows.map (fun r => if r = o then nr else r)
  | .del _ o => rows.filter (fun r => decide (r ≠ o))

/-- Replace a table's rows in the table map. -/
def updateTable (ts : List (String × List Row)) (t : String)
    (rows : List Row) : List (String × List Row) :=
  ts.map (fun p => if p.1 = t then (t, rows) else p)

/-- Fresh audit id (`gen_random_uuid()` default). -/
def freshAuditId (db : DB) : String := "a" ++ toString db.nextId

/-- One mutation executed as its own transaction against a database with the
audit triggers of lines 119-132 installed.  The row change and the trigger's
audit insert happen in the same transaction: when the audit insert violates
a constraint the trigger raises and the whole transaction aborts
(`Except.error`, the caller keeps the starting state); when it commits, the
new state carries the row change and exactly the one appended audit row. -/
def applyMutation (db : DB) (m : Mutation) (roles : List (String × String))
    (s : SessionCtx) : Except SqlError DB :=
  let rows := (db.tables.lookup m.table).getD []
  let rows' := applyRowChange rows m
  if m.table ∈ trackedTables then
    let ctx := get_current_user_context roles s
    let e := audit_trigger_function ctx m.op m.oldRow m.newRow
      (triggerNameFor m.table) m.table (freshAuditId db) s.now
    match auditInsertChecks e with
    | .error err => .error err
    | .ok _ =>
      .ok { tables := updateTable db.tables m.table rows'
            audit := db.audit ++ [e]
            nextId := db.nextId + 1 }
  else
    .ok { db with tables := updateTable db.tables m.table rows' }

/-- Model of `log_custom_action(p_table_name, p_record_id, p_action_type, p_metadata)`
(lines 135-169): resolve the caller context, insert one audit row (subject
to the CHECK constraints) and return its id; a constraint violation
raises. -/
def log_custom_action (db : DB) (roles : List (String × String))
    (s : SessionCtx) (p_table_name : String) (p_record_id : Option String)
    (p_action_type : String) (p_metadata : List (String × SqlValue)) :
    Except SqlError (DB × String) :=
  let ctx := get_current_user_context roles s
  let e : AuditEntry :=
    { id := freshAuditId db
      table_name := p_table_name
      record_id := p_record_id
      action_type := p_action_type
      user_id := ctx.user_id
      user_email := ctx.user_email
      user_role := ctx.user_role
      old_values := none
      new_values := none
      changed_fields := []
      ip_address := none
      user_agent := none
      session_id := none
      metadata := p_metadata
      created_at := s.now }
  match auditInsertChecks e with
  | .error err => .error err
  | .ok _ =>
    .ok ({ db with audit := db.audit ++ [e], nextId := db.nextId + 1 },
      freshAuditId db)

/-- Model of `logAuditAction(tableName, recordId, actionType, metadata)` (TypeScript,
src/infrastructure-optimization.md lines 295-319): call the
`log_custom_action` RPC; on success return the new entry id, and on ANY
error — RPC error result or thrown exception — log to the console and
return `null` (`none`).  The function itself never throws. -/
def logAuditAction (db : DB) (roles : List (String × String)) (s : SessionCtx)
    (tableName : String) (recordId : Option String) (actionType : String)
    (metadata : List (String × SqlValue)) : DB × Option String :=
  match log_custom_action db roles s tableName recordId actionType metadata with
  | .ok (db', entryId) => (db', some entryId)
  | .error _ => (db, none)

/-- Caller-supplied audit filters (the TypeScript `AuditFilters`). -/
structure Filters where
  tableName : Option String := none
  actionType : Option String := none
  userId : Option String := none
  userEmail : Option String := none
  startDate : Option Int := none
  endDate : Option Int := none
  limit : Option Nat := none
  offset : Option Nat := none
deriving DecidableEq, Repr

/-- The `view_audit_logs` RLS policy on `audit_logs` (lines 277-285): a row
is visible when the caller holds an `admin` or `inspector` role row, or
when the row's `user_id` equals `auth.uid()` (SQL equality, which does not
hold when either side is NULL). -/
def viewAuditLogsPolicy (roles : List (String × String)) (uid : Option String)
    (e : AuditEntry) : Bool :=
  roles.any (fun p =>
    (some p.1 == uid) && (p.2 == "admin" || p.2 == "inspector"))
  || (match uid, e.user_id with
      | some u, some v => u == v
      | _, _ => false)

/-- Audit rows a caller could SELECT under the `view_audit_logs` policy.
The policy governs only direct SELECTs on the `audit_logs` table; the
application's query paths — the `audit_logs_with_details` view (owner
rights, no `security_invoker`) and the SECURITY DEFINER `get_audit_logs` —
bypass row-level security entirely, so this filter is never applied on any
path the application uses. -/
def visibleEntries (entries : List AuditEntry) (roles : List (String × String))
    (uid : Option String) : List AuditEntry :=
  entries.filter (viewAuditLogsPolicy roles uid)

/-- WHERE clause of `get_audit_logs` (lines 215-220): conjunctive filters,
each NULL parameter matching every row. -/
def get_audit_logs_filter (f : Filters) (e : AuditEntry) : Bool :=
  (match f.tableName with | none => true | some t => e.table_name == t) &&
  (match f.actionType with | none => true | some a => e.action_type == a) &&
  (match f.userId with | none => true | some u => e.user_id == some u) &&
  (match f.startDate with | none => true | some d => decide (d ≤ e.created_at)) &&
  (match f.endDate with | none => true | some d => decide (e.created_at ≤ d))

/-- The clause `ORDER BY al.created_at DESC` (line 221) — the only ordering constraint
`get_audit_logs` imposes.  SQL leaves the relative order of
equal-`created_at` rows unspecified. -/
abbrev SortedByCreatedDesc (l : List AuditEntry) : Prop :=
  l.Pairwise (fun a b => b.created_at ≤ a.created_at)

/-- A legal unpaginated result of `get_audit_logs`: any permutation of the
filtered rows that is non-increasing in `created_at`. -/
abbrev IsFullQueryResult (db : DB) (f : Filters) (out : List AuditEntry) :
    Prop :=
  out.Perm (db.audit.filter (get_audit_logs_filter f)) ∧ SortedByCreatedDesc out

/-- A legal page of `get_audit_logs` under `p_limit`/`p_offset`
(lines 222-223): `OFFSET` then `LIMIT` applied to some legal full result. -/
abbrev IsPageResult (db : DB) (f : Filters) (lim off : Nat)
    (page : List AuditEntry) : Prop :=
  ∃ out, IsFullQueryResult db f out ∧ page = (out.drop off).take lim

/-- A `pilots` row, restricted to the columns the detail view reads. -/
structure Pilot where
  user_id : String
  first_name : String
  last_name : String
  pilot_license : String
deriving DecidableEq, Repr

/-- A `documents` row, restricted to the columns the detail view reads. -/
structure Document where
  id : String
  title : String
deriving DecidableEq, Repr

/-- Query-side application state: the typed projections of the tables the
`audit_logs_with_details` view joins, plus the audit log itself. -/
structure AppStore where
  pilots : List Pilot
  documents : List Document
  audit : List AuditEntry
deriving DecidableEq, Repr

/-- One row of the `audit_logs_with_details` view. -/
structure DetailedRow where
  entry : AuditEntry
  first_name : Option String
  last_name : Option String
  pilot_license : Option String
  record_description : Option String
deriving DecidableEq, Repr

/-- The view rows generated by one audit entry
(src/database/create-audit-view.sql lines 4-18): `LEFT JOIN pilots` on the
actor id and `LEFT JOIN documents` on the record id (a missed join leaves
the joined columns NULL; several join partners multiply the row), with the
CASE deriving `record_description` from `table_name`. -/
def viewRowsFor (ps : List Pilot) (ds : List Document) (e : AuditEntry) :
    List DetailedRow :=
  let pM := ps.filter (fun p => some p.user_id == e.user_id)
  let dM := ds.filter (fun d => some d.id == e.record_id)
  let pOpts : List (Option Pilot) := if pM.isEmpty then [none] else pM.map some
  let dOpts : List (Option Document) := if dM.isEmpty then [none] else dM.map some
  pOpts.flatMap (fun p? => dOpts.map (fun d? =>
    { entry := e
      first_name := p?.map Pilot.first_name
      last_name := p?.map Pilot.last_name
      pilot_license := p?.map Pilot.pilot_license
      record_description :=
        if e.table_name = "documents" then d?.map Document.title
        else if e.table_name = "pilots" then
          p?.map (fun p => p.first_name ++ " " ++ p.last_name)
        else some e.table_name }))

/-- The `audit_logs_with_details` view body as the database serves it to
an authenticated caller.  The view carries no `security_invoker` option,
so its base-table references are checked with the view owner's rights; the
owner of `audit_logs` is exempt from row-level security (no
`FORCE ROW LEVEL SECURITY`), and SELECT on the view is granted to
`authenticated`, so the view serves every audit row to any authenticated
caller — no RLS filter applies here.  (create-audit-view.sql lines 24-34
attempt `ENABLE ROW LEVEL SECURITY` and `CREATE POLICY` on the view; both
statements are invalid, since policies cannot exist on a view.)  The
view's own `ORDER BY created_at DESC` is re-imposed by every consumer, so
row order here is the base-table order. -/
def audit_logs_with_details (store : AppStore) : List DetailedRow :=
  store.audit.flatMap (viewRowsFor store.pilots store.documents)

/-- Whether `hay` starts with `needle`. -/
def leadMatch : List Char → List Char → Bool
  | [], _ => true
  | _ :: _, [] => false
  | a :: as, b :: bs => (a == b) && leadMatch as bs

/-- Whether `needle` occurs contiguously inside `hay`. -/
def hasSub (needle hay : List Char) : Bool :=
  if leadMatch needle hay then true
  else
    match hay with
    | [] => false
    | _ :: bs => hasSub needle bs

/-- Case-insensitive substring test: `ilike '%needle%'`. -/
def containsCI (hay needle : String) : Bool :=
  hasSub needle.toLower.data hay.toLower.data

/-- The filter chain of `getAuditLogsWithDetails` (TS lines 389-407):
conjunctive `eq`/`ilike`/`gte`/`lte` filters, each absent filter matching
every row. -/
def tsRowMatches (f : Filters) (r : DetailedRow) : Bool :=
  (match f.tableName with | none => true | some t => r.entry.table_name == t) &&
  (match f.actionType with | none => true | some a => r.entry.action_type == a) &&
  (match f.userId with | none => true | some u => r.entry.user_id == some u) &&
  (match f.userEmail with
   | none => true
   | some em =>
     match r.entry.user_email with
     | none => false
     | some e => containsCI e em) &&
  (match f.startDate with
   | none => true
   | some d => decide (d ≤ r.entry.created_at)) &&
  (match f.endDate with
   | none => true
   | some d => decide (r.entry.created_at ≤ d))

/-- The unpaginated matching set of a `getAuditLogsWithDetails` query. -/
def viewMatching (store : AppStore) (f : Filters) : List DetailedRow :=
  (audit_logs_with_details store).filter (tsRowMatches f)

/-- Descending-`created_at` comparison used to sort view rows. -/
def rowLe (a b : DetailedRow) : Prop :=
  b.entry.created_at ≤ a.entry.created_at

instance : DecidableRel rowLe := fun a b =>
  inferInstanceAs (Decidable (b.entry.created_at ≤ a.entry.created_at))

instance : IsTotal DetailedRow rowLe :=
  ⟨fun a b => (Int.le_total b.entry.created_at a.entry.created_at)⟩

instance : IsTrans DetailedRow rowLe :=
  ⟨fun _ _ _ h1 h2 => le_trans h2 h1⟩

/-- Model of `getAuditLogsWithDetails(filters)` (TS lines 363-423): select from the
view, apply the filters, `ORDER BY created_at DESC`, then
`.range(offset, offset + limit - 1)`; `limit` defaults to 50 and `offset`
to 0.  `insertionSort` fixes one legal order for the SQL sort, which is
non-deterministic between equal timestamps. -/
def getAuditLogsWithDetails (store : AppStore) (f : Filters) :
    List DetailedRow :=
  let lim := f.limit.getD 50
  let off := f.offset.getD 0
  ((List.insertionSort rowLe (viewMatching store f)).drop off).take lim

/-- The row cap `exportAuditLogsToCSV`/`exportAuditLogsToJSON` pass as
`limit` (TS lines 464 and 510). -/
def exportLimit : Nat := 10000

/-- The rows both export functions fetch: the filtered view query with the
caller's `limit` overridden by the cap. -/
def auditRowsForExport (store : AppStore) (f : Filters) : List DetailedRow :=
  getAuditLogsWithDetails store { f with limit := some exportLimit }

/-- CSV header row (TS lines 471-483). -/
def csvHeaders : List String :=
  [ "Timestamp", "Table", "Record ID", "Action", "User Email", "User Role"
  , "User Name", "Description", "Changed Fields", "IP Address", "User Agent" ]

/-- Join chunks with a separator (the TypeScript `Array.join`). -/
def joinSep (sep : List Char) : List (List Char) → List Char
  | [] => []
  | [x] => x
  | x :: xs => x ++ sep ++ joinSep sep xs

/-- The step `String(field).replace` of the CSV builder: double every inner
double quote. -/
def escQ : List Char → List Char
  | [] => []
  | c :: cs => if c = '"' then '"' :: '"' :: escQ cs else c :: escQ cs

/-- One CSV field: the escaped text wrapped in double quotes. -/
def quoteField (s : List Char) : List Char := '"' :: (escQ s ++ ['"'])

/-- One CSV record: quoted fields joined with commas. -/
def renderRowC (fs : List (List Char)) : List Char :=
  joinSep [','] (fs.map quoteField)

/-- A CSV document: records joined with newlines (TS lines 500-503). -/
def renderCSVC (rows : List (List (List Char))) : List Char :=
  joinSep ['\n'] (rows.map renderRowC)

/-- The CSV text for a list of rows of string fields. -/
def csvContent (rows : List (List String)) : String :=
  ⟨renderCSVC (rows.map (fun r => r.map String.data))⟩

/-- Timestamp rendering: `new Date(log.created_at).toISOString()`,
abstracted as the decimal epoch value — an injective textual rendering;
the concrete ISO layout is immaterial to the CSV escaping round-trip. -/
def tsString (t : Int) : String := ⟨intDecChars t⟩

/-- The eleven stringified fields of one exported row (TS lines 486-498);
`x || empty-string` renders absent values as the empty string, and the user
name is composed only when both name parts are truthy (present and
non-empty). -/
def entryFields (r : DetailedRow) : List String :=
  [ tsString r.entry.created_at
  , r.entry.table_name
  , r.entry.record_id.getD ""
  , r.entry.action_type
  , r.entry.user_email.getD ""
  , r.entry.user_role.getD ""
  , (match r.first_name, r.last_name with
     | some f, some l => if f = "" ∨ l = "" then "" else f ++ " " ++ l
     | _, _ => "")
  , r.record_description.getD ""
  , String.intercalate ", " r.entry.changed_fields
  , r.entry.ip_address.getD ""
  , r.entry.user_agent.getD "" ]

/-- Model of `exportAuditLogsToCSV(filters)` (TS lines 463-506): fetch the filtered
rows with the cap as limit, throw `No data to export` when nothing came
back, otherwise return the CSV text of header plus data rows. -/
def exportAuditLogsToCSV (store : AppStore) (f : Filters) :
    Except String String :=
  let data := auditRowsForExport store f
  if data.isEmpty then .error "No data to export"
  else .ok (csvContent (csvHeaders :: data.map entryFields))

/-- JSON string escaping (quote, backslash, newline). -/
def jescAux : List Char → List Char
  | [] => []
  | c :: cs =>
    if c = '"' ∨ c = '\\' then '\\' :: c :: jescAux cs
    else if c = '\n' then '\\' :: 'n' :: jescAux cs
    else c :: jescAux cs

/-- A JSON string literal. -/
def jsonStr (s : String) : String := "\"" ++ (⟨jescAux s.data⟩ : String) ++ "\""

/-- A nullable JSON string. -/
def jsonOfOpt : Option String → String
  | none => "null"
  | some s => jsonStr s

/-- A scalar value as JSON. -/
def jsonOfSqlValue : SqlValue → String
  | .null => "null"
  | .str s => jsonStr s
  | .num n => (⟨intDecChars n⟩ : String)

/-- A row snapshot as a JSON object. -/
def jsonOfRowObj (r : Row) : String :=
  "\x7b" ++ String.intercalate ","
    (r.map (fun p => jsonStr p.1 ++ ":" ++ jsonOfSqlValue p.2)) ++ "\x7d"

/-- A nullable row snapshot as JSON. -/
def jsonOfOptRow : Option Row → String
  | none => "null"
  | some r => jsonOfRowObj r

/-- One view row as a JSON object (`JSON.stringify` of the row, with the
pretty-printing whitespace abstracted away). -/
def jsonOfDetailedRow (r : DetailedRow) : String :=
  "\x7b" ++ String.intercalate ","
    [ "\"id\":" ++ jsonStr r.entry.id
    , "\"table_name\":" ++ jsonStr r.entry.table_name
    , "\"record_id\":" ++ jsonOfOpt r.entry.record_id
    , "\"action_type\":" ++ jsonStr r.entry.action_type
    , "\"user_id\":" ++ jsonOfOpt r.entry.user_id
    , "\"user_email\":" ++ jsonOfOpt r.entry.user_email
    , "\"user_role\":" ++ jsonOfOpt r.entry.user_role
    , "\"old_values\":" ++ jsonOfOptRow r.entry.old_values
    , "\"new_values\":" ++ jsonOfOptRow r.entry.new_values
    , "\"changed_fields\":[" ++
        String.intercalate "," (r.entry.changed_fields.map jsonStr) ++ "]"
    , "\"ip_address\":" ++ jsonOfOpt r.entry.ip_address
    , "\"user_agent\":" ++ jsonOfOpt r.entry.user_agent
    , "\"session_id\":" ++ jsonOfOpt r.entry.session_id
    , "\"metadata\":" ++ jsonOfRowObj r.entry.metadata
    , "\"created_at\":" ++ jsonStr (tsString r.entry.created_at)
    , "\"first_name\":" ++ jsonOfOpt r.first_name
    , "\"last_name\":" ++ jsonOfOpt r.last_name
    , "\"pilot_license\":" ++ jsonOfOpt r.pilot_license
    , "\"record_description\":" ++ jsonOfOpt r.record_description ] ++ "\x7d"

/-- Model of `exportAuditLogsToJSON(filters)` (TS lines 509-517): fetch the filtered
rows with the cap as limit, throw `No data to export` when nothing came
back, otherwise return the JSON text of the rows. -/
def exportAuditLogsToJSON (store : AppStore) (f : Filters) :
    Except String String :=
  let data := auditRowsForExport store f
  if data.isEmpty then .error "No data to export"
  else .ok ("[" ++ String.intercalate "," (data.map jsonOfDetailedRow) ++ "]")

/-- Body of a quoted CSV field: consume up to the closing quote, reading a
doubled quote as one literal quote; `none` on unterminated input.  Returns
the field text and the input after the closing quote. -/
def parseQuotedBody : List Char → Option (List Char × List Char)
  | [] => none
  | c :: cs =>
    if c = '"' then
      match cs with
      | [] => some ([], [])
      | c2 :: cs2 =>
        if c2 = '"' then (parseQuotedBody cs2).map (fun p => ('"' :: p.1, p.2))
        else some ([], cs)
    else (parseQuotedBody cs).map (fun p => (c :: p.1, p.2))

/-- Fields of one CSV record: quoted fields separated by commas; stops
before a record-separating newline (left in the remainder) or at the end
of input. -/
def parseFields : Nat → List Char → Option (List (List Char) × List Char)
  | 0, _ => none
  | _ + 1, [] => none
  | fuel + 1, c :: cs =>
    if c = '"' then
      match parseQuotedBody cs with
      | none => none
      | some (f, r) =>
        match r with
        | [] => some ([f], [])
        | c2 :: r2 =>
          if c2 = ',' then
            match parseFields fuel r2 with
            | none => none
            | some (fs, rest) => some (f :: fs, rest)
          else if c2 = '\n' then some ([f], c2 :: r2)
          else none
    else none

/-- Records of a CSV document: newline-separated records, each parsed by
`parseFields`; `none` on malformed input. -/
def parseRecords : Nat → List Char → Option (List (List (List Char)))
  | 0, _ => none
  | fuel + 1, cs =>
    match parseFields (cs.length + 1) cs with
    | none => none
    | some (fs, rest) =>
      match rest with
      | [] => some [fs]
      | c :: rs =>
        if c = '\n' then (parseRecords fuel rs).map (fun recs => fs :: recs)
        else none

/-- A standard (RFC 4180-style) parse of a fully-quoted CSV document:
quoted fields with doubled inner quotes, commas between fields, newlines
between records; `none` on malformed input. -/
def parseCSV (s : String) : Option (List (List String)) :=
  (parseRecords (s.data.length + 1) s.data).map
    (fun recs => recs.map (fun r => r.map (fun cs => (⟨cs⟩ : String))))

/-- A select item of the statistics subquery, classified for the grouping
rule: a bare column reference, a plain aggregate call, or a window call
with the columns of its PARTITION BY clause. -/
inductive SelectItem : Type where
  | bareCol (name : String)
  | agg (fn : String)
  | window (fn : String) (partitionCols : List String)
deriving DecidableEq, Repr

/-- The select list of the inner subquery of `get_audit_statistics`
(lines 249-257), item by item: `action_type`, `COUNT(*)`, `user_email`,
`COUNT(*) OVER (PARTITION BY user_email)`, `table_name`,
`COUNT(*) OVER (PARTITION BY table_name)`, `DATE(created_at)`,
`COUNT(*) OVER (PARTITION BY DATE(created_at))`. -/
def statsInnerSelect : List SelectItem :=
  [ .bareCol "action_type"
  , .agg "count"
  , .bareCol "user_email"
  , .window "count" ["user_email"]
  , .bareCol "table_name"
  , .window "count" ["table_name"]
  , .bareCol "activity_date"
  , .window "count" ["activity_date"] ]

/-- The inner subquery's GROUP BY list: there is none. -/
def statsInnerGroupBy : List String := []

/-- PostgreSQL's grouping rule: once a query contains a plain aggregate (or
a GROUP BY clause), every bare column in the select list — and every column
a window function partitions over — must appear in the GROUP BY list;
otherwise planning fails with error 42803. -/
def aggregateQueryValid (items : List SelectItem) (groupBy : List String) :
    Bool :=
  if items.any (fun i => match i with | .agg _ => true | _ => false)
      || !groupBy.isEmpty then
    items.all (fun i =>
      match i with
      | .bareCol c => groupBy.contains c
      | .agg _ => true
      | .window _ cols => cols.all (fun col => groupBy.contains col))
  else true

/-- Result row of `get_audit_statistics` (lines 232-238). -/
structure StatsRow where
  total_actions : Nat
  actions_by_type : List (String × Nat)
  actions_by_user : List (Option String × Nat)
  actions_by_table : List (String × Nat)
  daily_activity : List (Int × Nat)
deriving DecidableEq, Repr

/-- Counts of a list of entries grouped by a key. -/
def countsBy {κ : Type} [DecidableEq κ] (key : AuditEntry → κ)
    (l : List AuditEntry) : List (κ × Nat) :=
  ((l.map key).dedup).map
    (fun k => (k, (l.filter (fun e => decide (key e = k))).length))

/-- The key `DATE(created_at)` abstracted as the epoch day index. -/
def dayOf (t : Int) : Int := t / 86400

/-- The clause `created_at BETWEEN p_start_date AND p_end_date` (line 259): a NULL
bound makes the comparison NULL, so the row is filtered out. -/
def statsBetween (ps pe : Option Int) (e : AuditEntry) : Bool :=
  match ps, pe with
  | some s, some en => decide (s ≤ e.created_at) && decide (e.created_at ≤ en)
  | _, _ => false

/-- The four groupings over one filtered entry set — what the statistics
query describes: total count and counts by action type, by actor email, by
table and by day, all over the same set. -/
def statsOver (entries : List AuditEntry) : StatsRow :=
  { total_actions := entries.length
    actions_by_type := countsBy AuditEntry.action_type entries
    actions_by_user := countsBy AuditEntry.user_email entries
    actions_by_table := countsBy AuditEntry.table_name entries
    daily_activity := countsBy (fun e => dayOf e.created_at) entries }

/-- Model of `get_audit_statistics(p_start_date, p_end_date)` (lines 228-271).  The
inner subquery mixes the plain aggregate `COUNT(*)` with non-grouped bare
columns (its GROUP BY list is empty), so PostgreSQL's grouping rule rejects
the statement and every call raises error 42803.  Were the select list
valid, the call would return the groupings over the BETWEEN-filtered
set. -/
def get_audit_statistics (db : DB) (p_start_date p_end_date : Option Int) :
    Except SqlError StatsRow :=
  if aggregateQueryValid statsInnerSelect statsInnerGroupBy then
    .ok (statsOver (db.audit.filter (statsBetween p_start_date p_end_date)))
  else .error (.groupingError "action_type")

/-- Resolution of one defaulted RPC parameter: an argument omitted from the
call body takes the SQL `DEFAULT`; an explicitly supplied value — including
an explicit SQL NULL — is passed through (outer `Option`: supplied at all;
inner `Option`: SQL null). -/
def resolveArg (dflt : Option Int) (arg : Option (Option Int)) : Option Int :=
  match arg with
  | none => dflt
  | some v => v

/-- The value of `INTERVAL` of 30 days, in seconds. -/
def thirtyDays : Int := 30 * 86400

/-- The declared parameter defaults of `get_audit_statistics`
(lines 229-230): `NOW() - INTERVAL '30 days'` and `NOW()`. -/
def statsDefaultStart (now : Int) : Option Int := some (now - thirtyDays)

/-- The declared default of `p_end_date`: `NOW()`. -/
def statsDefaultEnd (now : Int) : Option Int := some now

/-- The date range `get_audit_statistics` effectively filters with, given
how each argument was supplied at the RPC boundary. -/
def statsEffectiveRange (now : Int) (argStart argEnd : Option (Option Int)) :
    Option Int × Option Int :=
  (resolveArg (statsDefaultStart now) argStart,
   resolveArg (statsDefaultEnd now) argEnd)

/-- How `getAuditStatistics(startDate?, endDate?)` (TS lines 426-434)
supplies the RPC arguments: `p_start_date: startDate || null` — both named
arguments are always present in the call body, so an omitted date reaches
the SQL function as an explicit NULL, never as an omitted argument. -/
def getAuditStatisticsArgs (startDate endDate : Option Int) :
    Option (Option Int) × Option (Option Int) :=
  (some startDate, some endDate)

/-- The trailing-30-days row predicate the specification prescribes for a
statistics query without an explicit date range. -/
def trailing30 (now : Int) (e : AuditEntry) : Bool :=
  decide (now - thirtyDays ≤ e.created_at) && decide (e.created_at ≤ now)

/-! ### Concrete data used by witnesses and counterexamples -/

/-- A sample audit entry with the given identity, action and timestamp. -/
def mkEntry (id tableName : String) (uid : Option String) (act : String)
    (t : Int) : AuditEntry :=
  { id := id
    table_name := tableName
    record_id := none
    action_type := act
    user_id := uid
    user_email := uid.map (fun u => u ++ "@example.com")
    user_role := none
    old_values := none
    new_values := none
    changed_fields := []
    ip_address := none
    user_agent := none
    session_id := none
    metadata := []
    created_at := t }

/-- An authenticated pilot session. -/
def demoSession : SessionCtx := ⟨some "u1", some "u1@example.com", 1700000000⟩

/-- A role table with a pilot and an admin. -/
def demoRoles : List (String × String) := [("u1", "pilot"), ("u2", "admin")]

/-- A `documents` row snapshot with every column of the table. -/
def demoDocRow : Row :=
  [ ("id", .str "d1"), ("pilot_id", .str "p1"), ("document_type", .str "noc")
  , ("title", .str "Medical Certificate"), ("file_url", .str "docs/d1.pdf")
  , ("file_size", .num 1024), ("file_type", .null)
  , ("upload_date", .str "2026-01-01"), ("expiry_date", .null)
  , ("status", .str "pending"), ("created_at", .str "2026-01-01")
  , ("updated_at", .str "2026-01-01") ]

/-- The row `demoDocRow` after an approval: `status` and `file_size` changed. -/
def demoDocRow2 : Row :=
  [ ("id", .str "d1"), ("pilot_id", .str "p1"), ("document_type", .str "noc")
  , ("title", .str "Medical Certificate"), ("file_url", .str "docs/d1.pdf")
  , ("file_size", .num 2048), ("file_type", .null)
  , ("upload_date", .str "2026-01-01"), ("expiry_date", .null)
  , ("status", .str "approved"), ("created_at", .str "2026-01-01")
  , ("updated_at", .str "2026-01-01") ]

/-- An empty database with the three tracked tables. -/
def emptyDB : DB :=
  ⟨[("documents", []), ("pilots", []), ("user_roles", [])], [], 0⟩

/-- A database holding one document row. -/
def dbWithDoc : DB :=
  ⟨[("documents", [demoDocRow]), ("pilots", []), ("user_roles", [])], [], 0⟩

/-- All-absent filters. -/
def noFilters : Filters := {}

/-- Entries of two different actors, for the authorization boundary. -/
def c3Entries : List AuditEntry :=
  [ mkEntry "e1" "documents" (some "u1") "VIEW" 100
  , mkEntry "e2" "documents" (some "u2") "UPDATE" 200 ]

/-- Query-side store for the authorization boundary. -/
def c3Store : AppStore := ⟨[], [], c3Entries⟩

/-- Database-side store with the same entries, for the SECURITY DEFINER
`get_audit_logs` path. -/
def c3db : DB := ⟨[], c3Entries, 2⟩

/-- Two entries sharing one `created_at`. -/
def c4e1 : AuditEntry := mkEntry "e1" "documents" (some "u1") "UPDATE" 500

/-- Second entry at the same timestamp. -/
def c4e2 : AuditEntry := mkEntry "e2" "documents" (some "u1") "UPDATE" 500

/-- Store with an exact `created_at` tie. -/
def c4db : DB := ⟨[], [c4e1, c4e2], 2⟩

/-- Entries with distinct timestamps. -/
def c4e3 : AuditEntry := mkEntry "e3" "documents" (some "u1") "UPDATE" 300

/-- The older of the two distinct-timestamp entries. -/
def c4e4 : AuditEntry := mkEntry "e4" "documents" (some "u1") "DELETE" 200

/-- Store with pairwise-distinct timestamps. -/
def c4db2 : DB := ⟨[], [c4e3, c4e4], 2⟩

/-- An entry created one day before `1700000000`. -/
def c9entry : AuditEntry :=
  mkEntry "e9" "documents" (some "u1") "VIEW" (1700000000 - 86400)

/-- One more row than the export cap. -/
def bigN : Nat := exportLimit + 1

/-- The i-th synthetic entry of the oversized store (distinct timestamps). -/
def bigEntry (i : Nat) : AuditEntry :=
  mkEntry ("b" ++ toString i) "documents" (some "u1") "VIEW" (2000000 - i)

/-- A store whose audit log exceeds the export cap by one row. -/
def bigStore : AppStore := ⟨[], [], (List.range bigN).map bigEntry⟩

/-- A document whose title mixes a quote, a comma and a newline. -/
def c6doc : Document := ⟨"d1", "a \"b\",\nc"⟩

/-- An audit entry pointing at `c6doc`, with request context set. -/
def c6entry : AuditEntry :=
  { mkEntry "e6" "documents" (some "u1") "UPDATE" 900 with
    record_id := some "d1"
    user_role := some "pilot"
    changed_fields := ["status", "updated_at"]
    ip_address := some "10.0.0.1"
    user_agent := some "Mozilla/5.0 (X11; Linux)" }

/-- Store exercising the CSV escaping through the documents join. -/
def c6Store : AppStore :=
  ⟨[⟨"u1", "Amy", "O\"Hara", "L-77"⟩], [c6doc], [c6entry]⟩

/-- The CSV text `exportAuditLogsToCSV` produces for `c6Store`. -/
def c6out : String :=
  csvContent (csvHeaders :: (auditRowsForExport c6Store noFilters).map entryFields)

/-- A store with no audit rows at all. -/
def c10Store : AppStore := ⟨[], [], []⟩

/-! ### Properties of the decimal text projection -/

theorem natDecCharsAux_eq_digits (fuel : Nat) : ∀ n : Nat, n ≤ fuel →
    natDecCharsAux fuel n = ((Nat.digits 10 n).map Nat.digitChar).reverse := by
  induction fuel with
  | zero =>
    intro n hn
    have h0 : n = 0 := Nat.le_zero.mp hn
    subst h0
    simp [natDecCharsAux]
  | succ fuel ih =>
    intro n hn
    by_cases h0 : n = 0
    · simp [natDecCharsAux, h0]
    · have hdiv : n / 10 ≤ fuel := by
        have := Nat.div_lt_self (Nat.pos_of_ne_zero h0) (by norm_num : 1 < 10)
        omega
      rw [Nat.digits_def' (by norm_num : 1 < 10) (Nat.pos_of_ne_zero h0)]
      simp [natDecCharsAux, h0, ih _ hdiv]

theorem natDecChars_eq_digits (n : Nat) :
    natDecChars n =
      if n = 0 then ['0'] else ((Nat.digits 10 n).map Nat.digitChar).reverse := by
  by_cases h0 : n = 0 <;>
    simp [natDecChars, h0, natDecCharsAux_eq_digits n n le_rfl]

theorem digitChar_inj_lt10 {a b : Nat} (ha : a < 10) (hb : b < 10)
    (h : Nat.digitChar a = Nat.digitChar b) : a = b := by
  interval_cases a <;> interval_cases b <;> simp_all [Nat.digitChar]

theorem map_digitChar_inj : ∀ {l₁ l₂ : List Nat},
    (∀ d ∈ l₁, d < 10) → (∀ d ∈ l₂, d < 10) →
    l₁.map Nat.digitChar = l₂.map Nat.digitChar → l₁ = l₂
  | [], [], _, _, _ => rfl
  | a :: l₁, b :: l₂, h₁, h₂, h => by
    simp only [List.map_cons, List.cons.injEq] at h
    have hab := digitChar_inj_lt10 (h₁ a (by simp)) (h₂ b (by simp)) h.1
    have htl := map_digitChar_inj (fun d hd => h₁ d (by simp [hd]))
      (fun d hd => h₂ d (by simp [hd])) h.2
    simp [hab, htl]

theorem natDecChars_inj {m n : Nat} (h : natDecChars m = natDecChars n) :
    m = n := by
  have digits_lt : ∀ k : Nat, ∀ d ∈ Nat.digits 10 k, d < 10 := fun k d hd =>
    Nat.digits_lt_base (by norm_num) hd
  rw [natDecChars_eq_digits, natDecChars_eq_digits] at h
  by_cases hm : m = 0 <;> by_cases hn : n = 0 <;>
    simp only [hm, hn, if_true, if_false, reduceIte] at h ⊢
  · exfalso
    have hmap : (Nat.digits 10 n).map Nat.digitChar = [Nat.digitChar 0] := by
      have := congrArg List.reverse h
      simpa [Nat.digitChar] using this.symm
    have : Nat.digits 10 n = [0] :=
      map_digitChar_inj (digits_lt n) (by simp) hmap
    have hod := Nat.ofDigits_digits 10 n
    rw [this] at hod
    exact hn (by simpa [Nat.ofDigits] using hod.symm)
  · exfalso
    have hmap : (Nat.digits 10 m).map Nat.digitChar = [Nat.digitChar 0] := by
      have := congrArg List.reverse h
      simpa [Nat.digitChar] using this
    have : Nat.digits 10 m = [0] :=
      map_digitChar_inj (digits_lt m) (by simp) hmap
    have hod := Nat.ofDigits_digits 10 m
    rw [this] at hod
    exact hm (by simpa [Nat.ofDigits] using hod.symm)
  · have := congrArg List.reverse h
    simp only [List.reverse_reverse] at this
    have := map_digitChar_inj (digits_lt m) (digits_lt n) this
    have := congrArg (Nat.ofDigits 10) this
    rwa [Nat.ofDigits_digits, Nat.ofDigits_digits] at this

theorem natDecChars_ne_nil (n : Nat) : natDecChars n ≠ [] := by
  rw [natDecChars_eq_digits]
  by_cases hn : n = 0
  · simp [hn]
  · have : Nat.digits 10 n ≠ [] := Nat.digits_ne_nil_iff_ne_zero.mpr hn
    simp [hn, this]

theorem natDecChars_no_dash (n : Nat) : ∀ c ∈ natDecChars n, c ≠ '-' := by
  rw [natDecChars_eq_digits]
  intro c hc
  by_cases hn : n = 0
  · simp [hn] at hc
    simp [hc]
  · simp only [hn, if_false, reduceIte, List.mem_reverse, List.mem_map] at hc
    obtain ⟨d, hd, rfl⟩ := hc
    have hd10 : d < 10 := Nat.digits_lt_base (by norm_num) hd
    interval_cases d <;> simp [Nat.digitChar]

theorem intDecChars_inj {m n : Int} (h : intDecChars m = intDecChars n) :
    m = n := by
  unfold intDecChars at h
  by_cases hm : m < 0 <;> by_cases hn : n < 0 <;>
    simp only [hm, hn, if_true, if_false, reduceIte] at h
  · have := natDecChars_inj (List.cons.inj h).2
    omega
  · exfalso
    cases hcn : natDecChars n.toNat with
    | nil => exact natDecChars_ne_nil _ hcn
    | cons c cs =>
      rw [hcn] at h
      exact natDecChars_no_dash n.toNat c (by simp [hcn])
        ((List.cons.inj h).1.symm)
  · exfalso
    cases hcm : natDecChars m.toNat with
    | nil => exact natDecChars_ne_nil _ hcm
    | cons c cs =>
      rw [hcm] at h
      exact natDecChars_no_dash m.toNat c (by simp [hcm])
        (List.cons.inj h).1
  · have := natDecChars_inj h
    omega

theorem textOf_inj_of_typeCompat {v w : SqlValue}
    (hc : v.typeCompat w = true) : v.textOf = w.textOf ↔ v = w := by
  cases v <;> cases w <;>
    simp_all [SqlValue.typeCompat, SqlValue.textOf, String.ext_iff]
  exact ⟨fun h => intDecChars_inj h, fun h => by rw [h]⟩

/-! ### Association-list lookups -/

theorem lookup_mem_of_eq_some : ∀ {l : Row} {k : String} {v : SqlValue},
    l.lookup k = some v → (k, v) ∈ l
  | [], k, v, h => by simp [List.lookup] at h
  | (a, b) :: l, k, v, h => by
    rw [List.lookup] at h
    cases hk : (k == a) with
    | true =>
      rw [hk] at h
      simp only [Option.some.injEq] at h
      have hka : k = a := eq_of_beq hk
      rw [hka, h]
      exact List.mem_cons_self _ _
    | false =>
      rw [hk] at h
      simp only at h
      exact List.mem_cons_of_mem _ (lookup_mem_of_eq_some h)

theorem lookup_isSome_of_mem_keys : ∀ {l : Row} {k : String},
    k ∈ l.map Prod.fst → ∃ v, l.lookup k = some v
  | [], k, h => by simp at h
  | (a, b) :: l, k, h => by
    rw [List.lookup]
    cases hk : (k == a) with
    | true => exact ⟨b, rfl⟩
    | false =>
      rw [List.map_cons, List.mem_cons] at h
      rcases h with h | h
      · exact absurd (beq_iff_eq.mpr h) (by simp [hk])
      · exact lookup_isSome_of_mem_keys h

/-! ### C2 — changed-field diff exactness -/

/-- Claim C2.  For a captured update — both snapshots are `to_jsonb` of rows
of the same table, so they carry the same column list and are column-wise
type-compatible — `changedFieldsOf` holds exactly the top-level keys
present in both snapshots whose values differ: no changed key is omitted,
no unchanged key included, and (vacuously, as the column lists coincide) no
key of only one snapshot is reported.  The trigger stores an empty
`changed_fields` array for INSERT and DELETE captures. -/
theorem changedFields_exact (oldD newD : Row) (k : String)
    (hkeys : newD.map Prod.fst = oldD.map Prod.fst)
    (hcompat : ∀ p ∈ oldD, ∀ q ∈ newD, p.1 = q.1 →
      SqlValue.typeCompat p.2 q.2 = true) :
    (k ∈ changedFieldsOf oldD newD ↔
      k ∈ newD.map Prod.fst ∧ k ∈ oldD.map Prod.fst ∧
        oldD.lookup k ≠ newD.lookup k)
    ∧ (∀ ctx oldRow newRow tgName tableName entryId now,
        (audit_trigger_function ctx .ins oldRow newRow tgName tableName
          entryId now).changed_fields = []
        ∧ (audit_trigger_function ctx .del oldRow newRow tgName tableName
          entryId now).changed_fields = []) := by
  constructor
  · unfold changedFieldsOf
    rw [List.mem_filter]
    constructor
    · rintro ⟨hmem, hne⟩
      simp only [decide_eq_true_eq] at hne
      refine ⟨hmem, hkeys ▸ hmem, ?_⟩
      obtain ⟨w, hw⟩ := lookup_isSome_of_mem_keys hmem
      obtain ⟨v, hv⟩ := lookup_isSome_of_mem_keys (hkeys ▸ hmem)
      rw [hv, hw]
      intro hcontra
      have hvw : v = w := by injection hcontra
      apply hne
      unfold rowText
      rw [hv, hw, hvw]
    · rintro ⟨hmem, hmemo, hne⟩
      refine ⟨hmem, ?_⟩
      simp only [decide_eq_true_eq]
      obtain ⟨w, hw⟩ := lookup_isSome_of_mem_keys hmem
      obtain ⟨v, hv⟩ := lookup_isSome_of_mem_keys hmemo
      unfold rowText
      rw [hv, hw]
      have hcomp : SqlValue.typeCompat v w = true :=
        hcompat (k, v) (lookup_mem_of_eq_some hv) (k, w)
          (lookup_mem_of_eq_some hw) rfl
      intro htext
      exact hne (by rw [hv, hw, (textOf_inj_of_typeCompat hcomp).mp htext])
  · intro ctx oldRow newRow tgName tableName entryId now
    exact ⟨rfl, rfl⟩

/-- Claim C2, witness: on the concrete document update `demoDocRow →
demoDocRow2`, the key `status` is reported as changed and the key `title`
is not. -/
theorem changedFields_exact_witness :
    ("status" ∈ changedFieldsOf demoDocRow demoDocRow2 ↔
      "status" ∈ demoDocRow2.map Prod.fst ∧
      "status" ∈ demoDocRow.map Prod.fst ∧
        demoDocRow.lookup "status" ≠ demoDocRow2.lookup "status")
    ∧ ("title" ∈ changedFieldsOf demoDocRow demoDocRow2 ↔
      "title" ∈ demoDocRow2.map Prod.fst ∧
      "title" ∈ demoDocRow.map Prod.fst ∧
        demoDocRow.lookup "title" ≠ demoDocRow2.lookup "title") :=
  ⟨(changedFields_exact demoDocRow demoDocRow2 "status" (by decide)
      (by decide)).1,
   (changedFields_exact demoDocRow demoDocRow2 "title" (by decide)
      (by decide)).1⟩

/-! ### C1 — implicit capture and transactional atomicity -/

/-- Claim C1, code bug.  The audit trigger records `TG_OP` as the
`action_type`, but for an insert `TG_OP` is `INSERT`, which the
`audit_logs` CHECK constraint does not allow (`CREATE` is the creation
value in its closed list).  The audit insert therefore raises inside the
trigger and — because trigger and mutation share one transaction — every
insert into a tracked table aborts; no tracked insert can ever commit.
Updates, whose `TG_OP` is `UPDATE`, commit with their audit row. -/
theorem tracked_insert_always_aborts :
    applyMutation emptyDB (.ins "documents" demoDocRow) demoRoles demoSession
      = .error (.checkViolation "audit_logs_action_type_check")
    ∧ (applyMutation dbWithDoc (.upd "documents" demoDocRow demoDocRow2)
        demoRoles demoSession).isOk = true := by
  constructor
  · rfl
  · rfl

/-! ### C7 — explicit capture: succeed-or-raise -/

/-- Claim C7, counterexample.  The client function `logAuditAction` called with an action type the
CHECK constraint rejects completes normally: it neither persists an entry
nor raises — it swallows the RPC error and returns `null`, leaving the
database unchanged.  The claim that the call "either succeeds and returns
the identifier … or raises an error" is false. -/
theorem logAuditAction_swallows_failure :
    logAuditAction dbWithDoc demoRoles demoSession "documents" (some "d1")
      "NOT_AN_ACTION" [] = (dbWithDoc, none) := by
  rfl

/-- Claim C7, amended.  The client function `logAuditAction` never raises: when the underlying
`log_custom_action` RPC succeeds it returns the id of the entry appended to
the log, and when the RPC fails it catches the error and returns `none`
with the database unchanged. -/
theorem logAuditAction_total (db : DB) (roles : List (String × String))
    (s : SessionCtx) (t : String) (rid : Option String) (a : String)
    (meta : List (String × SqlValue)) :
    (∃ db' i, log_custom_action db roles s t rid a meta = .ok (db', i) ∧
      logAuditAction db roles s t rid a meta = (db', some i) ∧
      db'.audit.length = db.audit.length + 1 ∧
      (db'.audit.getLast?).map AuditEntry.id = some i) ∨
    (∃ e, log_custom_action db roles s t rid a meta = .error e ∧
      logAuditAction db roles s t rid a meta = (db, none)) := by
  cases hres : log_custom_action db roles s t rid a meta with
  | error e =>
    right
    exact ⟨e, rfl, by unfold logAuditAction; rw [hres]⟩
  | ok pr =>
    left
    obtain ⟨db', i⟩ := pr
    refine ⟨db', i, rfl, by unfold logAuditAction; rw [hres], ?_, ?_⟩
    all_goals
      simp only [log_custom_action] at hres
      split at hres
    · exact absurd hres (by simp)
    · rw [Except.ok.injEq, Prod.mk.injEq] at hres
      obtain ⟨h1, h2⟩ := hres
      rw [← h1]
      simp
    · exact absurd hres (by simp)
    · rw [Except.ok.injEq, Prod.mk.injEq] at hres
      obtain ⟨h1, h2⟩ := hres
      rw [← h1, ← h2]
      simp [List.getLast?_concat]

/-! ### C3 — row-level-security boundary -/

/-- Claim C3, code bug.  The `view_audit_logs` policy would restrict a
pilot to rows with their own `user_id`, but no application query path
applies it: the `audit_logs_with_details` view executes with the
RLS-exempt owner's rights (no `security_invoker`; the view-level RLS
statements in create-audit-view.sql are invalid), and `get_audit_logs` is
SECURITY DEFINER.  Concretely: `u1`'s only role row is `pilot`, yet the
detail query — whose result does not depend on the caller's identity at
all — returns the admin `u2`'s entry, and `[e2, e1]` is a legal
`get_audit_logs` result of the same log; the policy, had it been applied
for `u1`, would have served only `u1`'s own entry. -/
theorem pilot_query_sees_all_actors :
    (∀ p ∈ demoRoles, p.1 = "u1" → p.2 = "pilot")
    ∧ (∃ r ∈ getAuditLogsWithDetails c3Store noFilters,
        r.entry.user_id = some "u2")
    ∧ IsFullQueryResult c3db noFilters
        [ mkEntry "e2" "documents" (some "u2") "UPDATE" 200
        , mkEntry "e1" "documents" (some "u1") "VIEW" 100 ]
    ∧ visibleEntries c3Entries demoRoles (some "u1")
        = [mkEntry "e1" "documents" (some "u1") "VIEW" 100] := by
  refine ⟨by decide, by decide, by decide, by decide⟩

/-! ### C4 — ordering and pagination stability -/

/-- Claim C4, counterexample.  The function `get_audit_logs` orders by `created_at DESC`
alone — there is no id tie-break.  With two distinct entries sharing a
`created_at`, both orders are legal results of the very same query on the
same data, so two identical queries with no intervening writes need not
return rows in the same order, contrary to the claim. -/
theorem query_order_unstable :
    IsFullQueryResult c4db noFilters [c4e1, c4e2]
    ∧ IsFullQueryResult c4db noFilters [c4e2, c4e1]
    ∧ [c4e1, c4e2] ≠ [c4e2, c4e1] := by
  refine ⟨⟨by decide, by decide⟩, ⟨by decide, by decide⟩, by decide⟩

/-- Claim C4, amended.  Results are ordered by `created_at` descending only.
When the matching rows carry pairwise-distinct `created_at` values the
order is unique — identical queries agree — and two 25-row pages assemble
exactly the first 50 rows of the unpaginated result, with no duplicated
and no skipped entry.  With ties, order and pagination are not
deterministic (previous theorem). -/
theorem query_order_stable_when_distinct (db : DB) (f : Filters)
    (hd : (db.audit.filter (get_audit_logs_filter f)).Pairwise
      (fun a b => a.created_at ≠ b.created_at)) :
    (∀ out1 out2, IsFullQueryResult db f out1 → IsFullQueryResult db f out2 →
      out1 = out2)
    ∧ (∀ out, IsFullQueryResult db f out →
        (out.drop 0).take 25 ++ (out.drop 25).take 25 = out.take 50) := by
  have key : ∀ out, IsFullQueryResult db f out →
      out.Pairwise (fun a b => b.created_at < a.created_at) := by
    intro out hout
    have hne : out.Pairwise (fun a b => a.created_at ≠ b.created_at) :=
      (hout.1.pairwise_iff (fun h => h.symm)).mpr hd
    exact (hout.2.and hne).imp
      (fun h => lt_of_le_of_ne h.1 (fun heq => h.2 heq.symm))
  constructor
  · intro out1 out2 h1 h2
    haveI : IsAntisymm AuditEntry (fun a b => b.created_at < a.created_at) :=
      ⟨fun a b hab hba => absurd (lt_trans hab hba) (lt_irrefl _)⟩
    exact List.eq_of_perm_of_sorted (h1.1.trans h2.1.symm) (key out1 h1)
      (key out2 h2)
  · intro out _
    rw [List.drop_zero]
    simpa using (List.take_add out 25 25).symm

/-- Claim C4, witness: on a store with distinct timestamps, two 25-row pages
tile the 50-row front of the full result. -/
theorem query_order_stable_witness :
    ([c4e3, c4e4].drop 0).take 25 ++ ([c4e3, c4e4].drop 25).take 25
      = [c4e3, c4e4].take 50 :=
  (query_order_stable_when_distinct c4db2 noFilters (by decide)).2
    [c4e3, c4e4] (by decide)

/-! ### C5 — statistics groupings -/

/-- Claim C5, code bug.  The inner subquery of `get_audit_statistics` mixes
the plain aggregate `COUNT(*)` with the non-grouped bare columns
`action_type`, `user_email`, `table_name` and `DATE(created_at)` while its
GROUP BY list is empty, so the planner's grouping rule rejects the
statement: every call raises, and no statistics — consistent or otherwise —
are ever returned. -/
theorem get_audit_statistics_never_returns (db : DB) (ps pe : Option Int) :
    get_audit_statistics db ps pe = .error (.groupingError "action_type")
    ∧ aggregateQueryValid statsInnerSelect statsInnerGroupBy = false :=
  ⟨rfl, by decide⟩

/-! ### C9 — statistics default date range -/

/-- Claim C9, code bug.  The SQL declares trailing-30-days defaults, but a
default applies only to an omitted argument; `getAuditStatistics` always
supplies both arguments (`startDate || null`), so an application
statistics query without dates filters with `BETWEEN NULL AND NULL`,
which matches no row — e.g. it excludes an entry created one day before
now that the trailing-30-days range includes. -/
theorem stats_default_range_defeated (now : Int) (e : AuditEntry) :
    getAuditStatisticsArgs none none = (some none, some none)
    ∧ statsEffectiveRange now (some none) (some none) = (none, none)
    ∧ statsBetween none none e = false
    ∧ statsEffectiveRange now none none = (some (now - thirtyDays), some now)
    ∧ trailing30 1700000000 c9entry = true
    ∧ statsBetween none none c9entry = false :=
  ⟨rfl, rfl, rfl, rfl, by decide, rfl⟩

/-! ### C8 — export row cap -/

theorem view_length_empty_joins : ∀ audit : List AuditEntry,
    (audit_logs_with_details ⟨[], [], audit⟩).length = audit.length
  | [] => rfl
  | e :: l => by
    rw [show audit_logs_with_details ⟨[], [], e :: l⟩
        = viewRowsFor [] [] e ++ audit_logs_with_details ⟨[], [], l⟩ from rfl]
    rw [List.length_append, view_length_empty_joins l]
    have h1 : (viewRowsFor ([] : List Pilot) ([] : List Document) e).length = 1 :=
      rfl
    rw [h1, List.length_cons]
    omega

theorem bigStore_matching_all (f : Filters)
    (hf : ∀ r, tsRowMatches f r = true) :
    (viewMatching bigStore f).length = exportLimit + 1 := by
  unfold viewMatching
  rw [List.filter_eq_self.mpr (fun r _ => hf r)]
  rw [show audit_logs_with_details bigStore
      = audit_logs_with_details ⟨[], [], (List.range bigN).map bigEntry⟩
      from rfl]
  rw [view_length_empty_joins]
  simp [bigN]

theorem auditRowsForExport_length (store : AppStore) (f : Filters)
    (h : exportLimit + f.offset.getD 0 <
      (viewMatching store { f with limit := some exportLimit }).length) :
    (auditRowsForExport store f).length = exportLimit := by
  simp only [auditRowsForExport, getAuditLogsWithDetails]
  rw [List.length_take, List.length_drop,
    (List.perm_insertionSort rowLe
      (viewMatching store { f with limit := some exportLimit })).length_eq]
  have hoff : ({ f with limit := some exportLimit } : Filters).offset
      = f.offset := rfl
  rw [hoff]
  simp only [Option.getD_some]
  exact Nat.min_eq_left (by omega)

theorem export_ok_of_nonempty (store : AppStore) (f : Filters)
    (h : auditRowsForExport store f ≠ []) :
    (∃ s, exportAuditLogsToCSV store f = .ok s)
    ∧ (∃ s, exportAuditLogsToJSON store f = .ok s) := by
  have hE : (auditRowsForExport store f).isEmpty = false := by
    cases hD : auditRowsForExport store f with
    | nil => exact absurd hD h
    | cons a l => rfl
  constructor
  · exact ⟨_, by simp only [exportAuditLogsToCSV, hE]; rfl⟩
  · exact ⟨_, by simp only [exportAuditLogsToJSON, hE]; rfl⟩

/-- Claim C8, counterexample.  On a store whose matching set exceeds the cap
by one row, the CSV export still returns successfully — the result is
silently truncated to the cap instead of being rejected with an error, so
the claim is false. -/
theorem export_beyond_cap_succeeds :
    exportLimit < (viewMatching bigStore noFilters).length
    ∧ (exportAuditLogsToCSV bigStore noFilters).isOk = true := by
  have h1 := bigStore_matching_all noFilters (fun r => rfl)
  have h2 := bigStore_matching_all
    { noFilters with limit := some exportLimit } (fun r => rfl)
  have hlen := auditRowsForExport_length bigStore noFilters
    (by rw [h2]; decide)
  refine ⟨by rw [h1]; omega, ?_⟩
  have hne : auditRowsForExport bigStore noFilters ≠ [] := by
    intro h0
    rw [h0] at hlen
    exact absurd hlen (by decide)
  obtain ⟨⟨s, hs⟩, _⟩ := export_ok_of_nonempty bigStore noFilters hne
  rw [hs]
  rfl

/-- Claim C8, amended.  Exports do not reject oversized result sets: the
export fetches with `limit = 10000`, so whenever more than `10000 + offset`
rows match, both the CSV and the JSON export succeed and the data is
silently truncated to exactly the 10000-row cap. -/
theorem export_truncates_at_cap (store : AppStore) (f : Filters)
    (h : exportLimit + f.offset.getD 0 <
      (viewMatching store { f with limit := some exportLimit }).length) :
    (auditRowsForExport store f).length = exportLimit
    ∧ (∃ s, exportAuditLogsToCSV store f = .ok s)
    ∧ (∃ s, exportAuditLogsToJSON store f = .ok s) := by
  have hlen := auditRowsForExport_length store f h
  have hne : auditRowsForExport store f ≠ [] := by
    intro h0
    rw [h0] at hlen
    exact absurd hlen (by decide)
  exact ⟨hlen, export_ok_of_nonempty store f hne⟩

/-- Claim C8, witness: the oversized store's CSV export holds exactly the cap
of rows. -/
theorem export_truncates_at_cap_witness :
    (auditRowsForExport bigStore noFilters).length = exportLimit :=
  (export_truncates_at_cap bigStore noFilters
    (by rw [bigStore_matching_all
        { noFilters with limit := some exportLimit } (fun r => rfl)]
        ; decide)).1

/-! ### C10 — empty export rejection -/

/-- Claim C10.  When no audit row matches the supplied filters, both export
operations throw `No data to export` instead of returning an empty
document. -/
theorem export_empty_rejects (store : AppStore) (f : Filters)
    (h : viewMatching store f = []) :
    exportAuditLogsToCSV store f = .error "No data to export"
    ∧ exportAuditLogsToJSON store f = .error "No data to export" := by
  have h' : viewMatching store { f with limit := some exportLimit } = [] := h
  have hdata : auditRowsForExport store f = [] := by
    simp only [auditRowsForExport, getAuditLogsWithDetails]
    rw [h']
    simp
  constructor
  · simp only [exportAuditLogsToCSV, hdata]
    rfl
  · simp only [exportAuditLogsToJSON, hdata]
    rfl

/-- Claim C10, witness: on an empty store both exports throw. -/
theorem export_empty_rejects_witness :
    exportAuditLogsToCSV c10Store noFilters = .error "No data to export"
    ∧ exportAuditLogsToJSON c10Store noFilters = .error "No data to export" :=
  export_empty_rejects c10Store noFilters rfl

/-! ### C6 — CSV escaping round-trip -/

theorem parseQuotedBody_escQ : ∀ (s rest : List Char),
    (∀ c cs', rest = c :: cs' → c ≠ '"') →
    parseQuotedBody (escQ s ++ '"' :: rest) = some (s, rest)
  | [], rest, hrest => by
    show parseQuotedBody ('"' :: rest) = some ([], rest)
    cases rest with
    | nil => rfl
    | cons c2 cs2 =>
      have hc2 : c2 ≠ '"' := hrest c2 cs2 rfl
      rw [parseQuotedBody.eq_def]
      simp [hc2]
  | c :: s, rest, hrest => by
    by_cases hc : c = '"'
    · subst hc
      show parseQuotedBody ('"' :: '"' :: (escQ s ++ '"' :: rest))
        = some ('"' :: s, rest)
      rw [parseQuotedBody.eq_def]
      simp [parseQuotedBody_escQ s rest hrest]
    · show parseQuotedBody (escQ (c :: s) ++ '"' :: rest) = some (c :: s, rest)
      rw [show escQ (c :: s) = c :: escQ s by simp [escQ, hc]]
      rw [show (c :: escQ s) ++ '"' :: rest = c :: (escQ s ++ '"' :: rest)
        from rfl]
      rw [parseQuotedBody.eq_def]
      simp [hc, parseQuotedBody_escQ s rest hrest]

theorem renderRowC_length_bound : ∀ fs : List (List Char),
    fs.length ≤ (renderRowC fs).length + 1
  | [] => by simp
  | [x] => by simp
  | x :: y :: fs => by
    have ih := renderRowC_length_bound (y :: fs)
    have hq : renderRowC (x :: y :: fs)
        = (quoteField x ++ [',']) ++ renderRowC (y :: fs) := rfl
    rw [hq, List.length_append, List.length_append, List.length_cons,
      List.length_cons]
    simp only [List.length_cons, List.length_nil]
    rw [List.length_cons] at ih
    omega

theorem renderCSVC_length_bound : ∀ rows : List (List (List Char)),
    rows.length ≤ (renderCSVC rows).length + 1
  | [] => by simp
  | [x] => by simp
  | x :: y :: rows => by
    have ih := renderCSVC_length_bound (y :: rows)
    have hq : renderCSVC (x :: y :: rows)
        = (renderRowC x ++ ['\n']) ++ renderCSVC (y :: rows) := rfl
    rw [hq, List.length_append, List.length_append, List.length_cons,
      List.length_cons]
    simp only [List.length_cons, List.length_nil]
    rw [List.length_cons] at ih
    omega

theorem parseFields_quote (fuel : Nat) (X : List Char) :
    parseFields (fuel + 1) ('"' :: X)
      = match parseQuotedBody X with
        | none => none
        | some (fd, r) =>
          match r with
          | [] => some ([fd], [])
          | c2 :: r2 =>
            if c2 = ',' then
              match parseFields fuel r2 with
              | none => none
              | some (fds, rest') => some (fd :: fds, rest')
            else if c2 = '\n' then some ([fd], c2 :: r2)
            else none := rfl

theorem parseFields_render : ∀ (fs : List (List Char)) (fuel : Nat)
    (rest : List Char), fs ≠ [] → fs.length ≤ fuel →
    (rest = [] ∨ ∃ rs, rest = '\n' :: rs) →
    parseFields fuel (renderRowC fs ++ rest) = some (fs, rest)
  | [], _, _, h, _, _ => absurd rfl h
  | [f], fuel, rest, _, hfuel, hrest => by
    cases fuel with
    | zero => exact absurd hfuel (by simp)
    | succ fuel =>
      have hassoc : renderRowC [f] ++ rest = '"' :: (escQ f ++ '"' :: rest) := by
        show quoteField f ++ rest = _
        simp [quoteField, List.append_assoc]
      have hhd : ∀ c cs', rest = c :: cs' → c ≠ '"' := by
        intro c cs' hc
        rcases hrest with h | ⟨rs, h⟩
        · rw [h] at hc; exact absurd hc (by simp)
        · rw [h] at hc
          have : '\n' = c := (List.cons.inj hc).1
          rw [← this]
          decide
      rw [hassoc, parseFields_quote, parseQuotedBody_escQ f rest hhd]
      rcases hrest with h | ⟨rs, h⟩ <;> subst h
      · rfl
      · rfl
  | f :: g :: fs, fuel, rest, _, hfuel, hrest => by
    cases fuel with
    | zero => exact absurd hfuel (by simp)
    | succ fuel =>
      have hassoc : renderRowC (f :: g :: fs) ++ rest
          = '"' :: (escQ f ++ '"' :: (',' :: (renderRowC (g :: fs) ++ rest))) := by
        rw [show renderRowC (f :: g :: fs)
            = (quoteField f ++ [',']) ++ renderRowC (g :: fs) from rfl]
        simp [quoteField, List.append_assoc]
      have hhd : ∀ c cs',
          (',' :: (renderRowC (g :: fs) ++ rest) : List Char) = c :: cs' →
          c ≠ '"' := by
        intro c cs' hc
        have : ',' = c := (List.cons.inj hc).1
        rw [← this]
        decide
      rw [hassoc, parseFields_quote, parseQuotedBody_escQ f _ hhd]
      show (match parseFields fuel (renderRowC (g :: fs) ++ rest) with
          | none => none
          | some (fds, rest') => some (f :: fds, rest'))
        = some (f :: g :: fs, rest)
      rw [parseFields_render (g :: fs) fuel rest (by simp)
        (by simp only [List.length_cons] at hfuel ⊢; omega) hrest]

theorem parseRecords_render : ∀ (rows : List (List (List Char))) (fuel : Nat),
    rows ≠ [] → (∀ r ∈ rows, r ≠ []) → rows.length ≤ fuel →
    parseRecords fuel (renderCSVC rows) = some rows
  | [], _, h, _, _ => absurd rfl h
  | [a], fuel, _, hr, hfuel => by
    cases fuel with
    | zero => exact absurd hfuel (by simp)
    | succ fuel =>
      have hpf := parseFields_render a ((renderRowC a).length + 1) []
        (hr a (by simp)) (by have := renderRowC_length_bound a; omega)
        (Or.inl rfl)
      rw [List.append_nil] at hpf
      show (match parseFields ((renderRowC a).length + 1) (renderRowC a) with
          | none => none
          | some (fs, rest) =>
            match rest with
            | [] => some [fs]
            | c :: rs =>
              if c = '\n' then
                (parseRecords fuel rs).map (fun recs => fs :: recs)
              else none)
        = some [a]
      rw [hpf]
  | a :: b :: rows, fuel, _, hr, hfuel => by
    cases fuel with
    | zero => exact absurd hfuel (by simp)
    | succ fuel =>
      have hassoc : renderCSVC (a :: b :: rows)
          = renderRowC a ++ ('\n' :: renderCSVC (b :: rows)) := by
        rw [show renderCSVC (a :: b :: rows)
            = (renderRowC a ++ ['\n']) ++ renderCSVC (b :: rows) from rfl]
        simp [List.append_assoc]
      rw [hassoc]
      have hpf := parseFields_render a
        ((renderRowC a ++ ('\n' :: renderCSVC (b :: rows))).length + 1)
        ('\n' :: renderCSVC (b :: rows)) (hr a (by simp))
        (by
          have := renderRowC_length_bound a
          rw [List.length_append]
          omega)
        (Or.inr ⟨_, rfl⟩)
      show (match parseFields
            ((renderRowC a ++ '\n' :: renderCSVC (b :: rows)).length + 1)
            (renderRowC a ++ '\n' :: renderCSVC (b :: rows)) with
          | none => none
          | some (fs, rest) =>
            match rest with
            | [] => some [fs]
            | c :: rs =>
              if c = '\n' then
                (parseRecords fuel rs).map (fun recs => fs :: recs)
              else none)
        = some (a :: b :: rows)
      rw [hpf]
      show (parseRecords fuel (renderCSVC (b :: rows))).map
          (fun recs => a :: recs) = some (a :: b :: rows)
      rw [parseRecords_render (b :: rows) fuel (by simp)
        (fun r hrm => hr r (by simp [hrm]))
        (by simp only [List.length_cons] at hfuel ⊢; omega)]
      rfl

theorem mk_data (s : String) : String.mk s.data = s := rfl

/-- Claim C6.  Parsing the CSV text produced by `exportAuditLogsToCSV` with a
standard CSV parser recovers exactly the header row followed by the
exported rows, each field character-for-character identical to the
stringified source field — including fields containing commas, double
quotes or newlines, since every field is quoted and inner quotes are
doubled. -/
theorem csv_export_roundtrip (store : AppStore) (f : Filters) (s : String)
    (h : exportAuditLogsToCSV store f = .ok s) :
    parseCSV s
      = some (csvHeaders :: (auditRowsForExport store f).map entryFields) := by
  have hround : ∀ rows : List (List String), rows ≠ [] →
      (∀ r ∈ rows, r ≠ []) → parseCSV (csvContent rows) = some rows := by
    intro rows h1 h2
    unfold parseCSV csvContent
    rw [show (String.mk
        (renderCSVC (rows.map (fun r => r.map String.data)))).data
        = renderCSVC (rows.map (fun r => r.map String.data)) from rfl]
    rw [parseRecords_render (rows.map (fun r => r.map String.data)) _
      (by simpa using h1)
      (by
        intro r hrm
        obtain ⟨r0, hr0, rfl⟩ := List.mem_map.mp hrm
        simpa using h2 r0 hr0)
      (renderCSVC_length_bound (rows.map (fun r => r.map String.data)))]
    rw [Option.map_some']
    congr 1
    rw [List.map_map]
    have hcomp : ∀ r : List String,
        ((fun r : List (List Char) => r.map String.mk) ∘
          fun r : List String => r.map String.data) r = r := by
      intro r
      simp only [Function.comp_apply, List.map_map]
      rw [show (String.mk ∘ String.data) = id from funext mk_data, List.map_id]
    calc rows.map _ = rows.map id := List.map_congr_left (fun r _ => hcomp r)
      _ = rows := List.map_id rows
  simp only [exportAuditLogsToCSV] at h
  by_cases hE : (auditRowsForExport store f).isEmpty = true
  · rw [if_pos hE] at h
    exact absurd h (by simp)
  · rw [if_neg hE] at h
    rw [Except.ok.injEq] at h
    rw [← h]
    apply hround
    · simp
    · intro r hrm
      rcases List.mem_cons.mp hrm with hh | hh
      · subst hh
        simp [csvHeaders]
      · obtain ⟨x, hx, rfl⟩ := List.mem_map.mp hh
        simp [entryFields]

/-- Claim C6, witness: the round-trip on a concrete store whose document title
contains a double quote, a comma and a newline. -/
theorem csv_export_roundtrip_witness :
    parseCSV c6out
      = some (csvHeaders :: (auditRowsForExport c6Store noFilters).map
          entryFields) :=
  csv_export_roundtrip c6Store noFilters c6out rfl

end PilotDocs
